import Mathlib

/-!
Verification of the `dire::MultiGrid` bucket container
(`src/dire_cfd/include/multi_grid.hpp`).

The container is embedded shallowly:

* `std::array<size_t, dim>` values (`GridSize`, `CellId`) become `List Nat`;
  every theorem that needs the fixed length `dim` carries it as a hypothesis.
* `size_t` arithmetic is modelled as unbounded `Nat` (all quantities involved
  are bounded by the number of cells or items, far below `2 ^ 64`), except in
  the constructor's `std::accumulate` call, whose accumulator is a C++ `int`
  (the literal `1`): there the conversions through the 32-bit signed
  accumulator and back to `size_t` are modelled exactly.
* exceptions become `Except` / `Option` error results; a member function that
  throws before mutating returns the unchanged state paired with the error.
* `std::vector` indexing becomes `List.getD`, in-place writes become
  `List.set`, `resize` keeps the prefix and pads with `default`.
-/

namespace DiRe

/-- Errors of the container, named as in the specification: the constructor
throws on a zero grid extent, `add`/`enumerateData` on an out-of-range cell
id, `enumerateData` on a non-compressed grid. -/
inductive GridError where
  | InvalidShape : GridError
  | OutOfRange : GridError
  | NotCompressed : GridError
deriving DecidableEq, Repr

/-- Grid extent along each dimension (`std::array<size_t, dim>`). -/
abbrev GridSize := List Nat

/-- Cell coordinate tuple (`std::array<size_t, dim>`). -/
abbrev CellId := List Nat

/-- The stored data in uncompressed form (`MultiGrid::RawData`). -/
structure RawData (Data : Type) where
  data : List Data
  cell_ids : List CellId
deriving DecidableEq

/-- The stored data in compressed form (`MultiGrid::CompressedData`). -/
structure CompressedData (Data : Type) where
  data : List Data
  num_data_per_cell : List Nat
  first_data_id_per_cell : List Nat
  next_data_id_per_cell_buff : List Nat
deriving DecidableEq

/-- The whole container state (the data members of `MultiGrid`). -/
structure MultiGrid (Data : Type) where
  grid_size_ : GridSize
  num_cells_ : Nat
  compressed_ : Bool
  raw_data_ : RawData Data
  compressed_data_ : CompressedData Data
deriving DecidableEq

/-- Result of `enumerateData`: the begin and end iterators of the view,
modelled as indices into the compressed data array. -/
structure DataBounds where
  beginIdx : Nat
  endIdx : Nat
deriving DecidableEq, Repr

/-- The loop body of `MultiGrid::linearize`, walking the paired
`(cell_id[i], grid_size_[i])` entries with accumulators
`storage_id` and `mult`. All three quantities are `size_t`, so the
multiplication and the addition wrap modulo `2 ^ 64`. -/
def linLoop : List (Nat × Nat) → Nat → Nat → Nat
  | [], storage_id, _ => storage_id
  | p :: rest, storage_id, mult =>
      linLoop rest ((storage_id + (p.1 * mult) % 2 ^ 64) % 2 ^ 64)
        ((mult * p.2) % 2 ^ 64)

/-- `MultiGrid::linearize`: `storage_id = 0; mult = 1;`
`for i < dim: storage_id += cell_id[i] * mult; mult *= grid_size_[i]`,
in `size_t` arithmetic. -/
def linearize (grid_size cell_id : List Nat) : Nat :=
  linLoop (cell_id.zip grid_size) 0 1

/-- The same loop with exact (unbounded) arithmetic, used to relate the
wrapped computation to the mathematical mixed-radix value when no step
can overflow. -/
def linLoopExact : List (Nat × Nat) → Nat → Nat → Nat
  | [], storage_id, _ => storage_id
  | p :: rest, storage_id, mult =>
      linLoopExact rest (storage_id + p.1 * mult) (mult * p.2)

/-- The exact mixed-radix linearization `Σ c_i · (∏_{j<i} n_j)` of the
specification, as the exact-arithmetic loop. -/
def linearizeExact (grid_size cell_id : List Nat) : Nat :=
  linLoopExact (cell_id.zip grid_size) 0 1

/-- The bounds check shared by `MultiGrid::add` and
`MultiGrid::enumerateData`: no component `cell_id[i]` may reach
`grid_size_[i]`. -/
def cellOk (grid_size cell_id : List Nat) : Bool :=
  (cell_id.zip grid_size).all fun p => p.1 < p.2

/-- Conversion of a `size_t` value to a 32-bit signed `int`
(modular wrap-around, as implemented by mainstream compilers). -/
def intOfU64 (x : Nat) : Int :=
  let r : Nat := x % 2 ^ 32
  if r < 2 ^ 31 then (r : Int) else (r : Int) - 2 ^ 32

/-- Conversion of an `int` value to `size_t` (two's-complement, mod `2 ^ 64`). -/
def u64OfInt (v : Int) : Nat :=
  (v % (2 ^ 64 : Int)).toNat

/-- One step of `std::accumulate(grid_size_.begin(), grid_size_.end(), 1,`
`std::multiplies<size_t>())`: the accumulator has type `int` (from the
literal `1`), each step converts it to `size_t`, multiplies mod `2 ^ 64`,
and narrows the product back to `int`. -/
def accMulStep (acc : Int) (n : Nat) : Int :=
  intOfU64 (u64OfInt acc * n % 2 ^ 64)

/-- The value stored into `num_cells_` by the constructor's initializer
list: the `int`-accumulated product, converted back to `size_t`. -/
def numCellsInit (grid_size : List Nat) : Nat :=
  u64OfInt (grid_size.foldl accMulStep 1)

/-- The exact mathematical cell count `C = ∏ n_i` of the specification. -/
def specNumCells (grid_size : List Nat) : Nat :=
  grid_size.prod

/-- The constructor `MultiGrid::MultiGrid(grid_size, buff_size)`.
`num_cells_` is computed in the member-initializer list before the body
validates the extents; `buff_size` only reserves capacity, which is not
observable. On success every per-cell array has length `num_cells_`,
zero-initialized, the raw buffer is empty and `compressed_` is false. -/
def mkMultiGrid (Data : Type) [Inhabited Data] (grid_size : GridSize)
    (buff_size : Nat) : Except GridError (MultiGrid Data) :=
  let num_cells := numCellsInit grid_size
  let _ := buff_size
  if grid_size.any fun n => n == 0 then
    Except.error GridError.InvalidShape
  else
    Except.ok
      { grid_size_ := grid_size
        num_cells_ := num_cells
        compressed_ := false
        raw_data_ := { data := [], cell_ids := [] }
        compressed_data_ :=
          { data := []
            num_data_per_cell := List.replicate num_cells 0
            first_data_id_per_cell := List.replicate num_cells 0
            next_data_id_per_cell_buff := List.replicate num_cells 0 } }

namespace MultiGrid

variable {Data : Type}

/-- `MultiGrid::add(cell_id, data)`: validates the cell id (throwing
`OutOfRange` before any mutation), clears `compressed_` and appends to the
two raw sequences. The pair's first component is the state of the object
after the call (unchanged when the call throws). -/
def add (g : MultiGrid Data) (cell_id : CellId) (data : Data) :
    MultiGrid Data × Option GridError :=
  if ¬ cellOk g.grid_size_ cell_id then
    (g, some GridError.OutOfRange)
  else
    ({ g with
        compressed_ := false
        raw_data_ :=
          { data := g.raw_data_.data ++ [data]
            cell_ids := g.raw_data_.cell_ids ++ [cell_id] } }, none)

/-- `MultiGrid::clear()`: clears the flag and truncates both raw sequences
(capacity retention is not observable). -/
def clear (g : MultiGrid Data) : MultiGrid Data :=
  { g with compressed_ := false, raw_data_ := { data := [], cell_ids := [] } }

end MultiGrid

/-- The count pass of `MultiGrid::compress`: after `std::fill`-ing the
per-cell counters with zero, `++num_data_per_cell[linearize(cell_id)]` for
every raw cell id in order. -/
def countLoop (grid_size : GridSize) (cell_ids : List CellId)
    (init : List Nat) : List Nat :=
  cell_ids.foldl
    (fun counts cell_id =>
      let storage_id := linearize grid_size cell_id
      counts.set storage_id (counts.getD storage_id 0 + 1))
    init

/-- The prefix pass of `MultiGrid::compress`: walks the counter array with a
running offset `first_data_id_buff`, emitting the exclusive prefix sums. -/
def prefixLoop : List Nat → Nat → List Nat
  | [], _ => []
  | c :: cs, first_data_id_buff => first_data_id_buff :: prefixLoop cs (first_data_id_buff + c)

/-- One iteration of the scatter pass of `MultiGrid::compress`:
`next_data_id = next_data_id_per_cell_buff[storage_id]++;`
`data[next_data_id] = raw_data_.data[i];`. State is `(data, next buffer)`. -/
def scatterStep (grid_size : GridSize) (st : List Data × List Nat)
    (p : CellId × Data) : List Data × List Nat :=
  let storage_id := linearize grid_size p.1
  let next_data_id := st.2.getD storage_id 0
  (st.1.set next_data_id p.2, st.2.set storage_id (next_data_id + 1))

/-- The scatter pass of `MultiGrid::compress`, iterating `i` over the raw
entries `(cell_ids[i], data[i])` in insertion order. -/
def scatterLoop (grid_size : GridSize) (raw : List (CellId × Data))
    (st : List Data × List Nat) : List Data × List Nat :=
  raw.foldl (scatterStep grid_size) st

/-- `std::vector::resize(n)`: keeps the first `n` elements and pads with
default-constructed elements. -/
def vecResize [Inhabited Data] (v : List Data) (n : Nat) : List Data :=
  v.take n ++ List.replicate (n - v.length) default

namespace MultiGrid

variable {Data : Type}

/-- `MultiGrid::compress()`: returns immediately when already compressed,
otherwise runs the count, prefix and scatter passes and sets the flag. -/
def compress [Inhabited Data] (g : MultiGrid Data) : MultiGrid Data :=
  if g.compressed_ then g
  else
    let counts := countLoop g.grid_size_ g.raw_data_.cell_ids
      (g.compressed_data_.num_data_per_cell.map fun _ => 0)
    let first := prefixLoop counts 0
    let data0 := vecResize g.compressed_data_.data g.raw_data_.data.length
    let res := scatterLoop g.grid_size_ (g.raw_data_.cell_ids.zip g.raw_data_.data)
      (data0, first)
    { g with
        compressed_ := true
        compressed_data_ :=
          { data := res.1
            num_data_per_cell := counts
            first_data_id_per_cell := first
            next_data_id_per_cell_buff := res.2 } }

/-- `MultiGrid::enumerateData(cell_id)`: checks `compressed_` first, then the
cell id, then returns iterators at offsets `first_data_id_per_cell[s]` and
`first_data_id_per_cell[s] + num_data_per_cell[s]`. -/
def enumerateData (g : MultiGrid Data) (cell_id : CellId) :
    Except GridError DataBounds :=
  if ¬ g.compressed_ then
    Except.error GridError.NotCompressed
  else if ¬ cellOk g.grid_size_ cell_id then
    Except.error GridError.OutOfRange
  else
    let storage_id := linearize g.grid_size_ cell_id
    Except.ok
      { beginIdx := g.compressed_data_.first_data_id_per_cell.getD storage_id 0
        endIdx := g.compressed_data_.first_data_id_per_cell.getD storage_id 0
          + g.compressed_data_.num_data_per_cell.getD storage_id 0 }

end MultiGrid

/-- The list of elements a `DataBounds` view ranges over: the elements of the
compressed data array with indices in `[beginIdx, endIdx)`. -/
def viewOf (g : MultiGrid Data) (b : DataBounds) : List Data :=
  (g.compressed_data_.data.drop b.beginIdx).take (b.endIdx - b.beginIdx)

/-- A cell id is valid for a grid extent when the tuples have the same
length and every coordinate is strictly below the extent. -/
def ValidCell (grid_size cell_id : List Nat) : Prop :=
  List.Forall₂ (fun c n => c < n) cell_id grid_size

instance (grid_size cell_id : List Nat) : Decidable (ValidCell grid_size cell_id) :=
  inferInstanceAs (Decidable (List.Forall₂ _ _ _))

/-- Structural form of the linearization: over paired
`(coordinate, extent)` entries, `lin ((c, n) :: r) = c + n * lin r`. -/
def linSimple : List (Nat × Nat) → Nat
  | [] => 0
  | p :: rest => p.1 + p.2 * linSimple rest

/-- Mixed-radix inverse of `linearize`: peel one coordinate per dimension
with mod and div. -/
def delin : List Nat → Nat → List Nat
  | [], _ => []
  | n :: ns, s => s % n :: delin ns (s / n)

/-- The items of `raw` whose cell id linearizes to `s`, in insertion
order. -/
def cellEntries (grid_size : GridSize) (raw : List (CellId × Data)) (s : Nat) :
    List Data :=
  (raw.filter fun p => linearize grid_size p.1 == s).map Prod.snd

/-- How many raw entries linearize to cell `s`. -/
def cntF (grid_size : GridSize) (raw : List (CellId × Data)) (s : Nat) : Nat :=
  (cellEntries grid_size raw s).length

/-- The CSR start offset of cell `s`: the number of raw entries landing in
cells strictly before `s`. -/
def fstF (grid_size : GridSize) (raw : List (CellId × Data)) (s : Nat) : Nat :=
  ∑ k in Finset.range s, cntF grid_size raw k

/-- The CSR invariants of the compressed buffer, as stated by the
specification: counts sum to the raw size, the data array has the raw size,
and every start offset is the exclusive prefix sum of the counts. -/
def CSRinv (g : MultiGrid Data) : Prop :=
  g.compressed_data_.num_data_per_cell.sum = g.raw_data_.data.length ∧
  g.compressed_data_.data.length = g.raw_data_.data.length ∧
  ∀ s < g.num_cells_,
    g.compressed_data_.first_data_id_per_cell.getD s 0
      = ∑ k in Finset.range s, g.compressed_data_.num_data_per_cell.getD k 0

/-- Structural well-formedness maintained by every public operation: the
counter array keeps its constructed length, the raw sequences stay parallel,
every buffered cell id is valid for the (positive) grid extents, and
`num_cells_` keeps its constructed value. -/
def StateWF (g : MultiGrid Data) : Prop :=
  g.compressed_data_.num_data_per_cell.length = g.num_cells_ ∧
  g.raw_data_.cell_ids.length = g.raw_data_.data.length ∧
  (∀ cid ∈ g.raw_data_.cell_ids, ValidCell g.grid_size_ cid) ∧
  (∀ n ∈ g.grid_size_, 1 ≤ n) ∧
  g.num_cells_ = numCellsInit g.grid_size_

/-- States reachable through the public interface: a constructed grid
followed by any sequence of `add` (successful or throwing), `clear` and
`compress` calls. -/
inductive Reached (Data : Type) [Inhabited Data] : MultiGrid Data → Prop where
  | ctor (gs : GridSize) (b : Nat) (g : MultiGrid Data) :
      mkMultiGrid Data gs b = Except.ok g → Reached Data g
  | add (g : MultiGrid Data) (c : CellId) (d : Data) :
      c.length = g.grid_size_.length →
      Reached Data g → Reached Data (g.add c d).1
  | clear (g : MultiGrid Data) : Reached Data g → Reached Data g.clear
  | compress (g : MultiGrid Data) : Reached Data g → Reached Data g.compress

/-- Folding a list of `(cell_id, item)` pairs through `add`, keeping the
state component. -/
def addList (g : MultiGrid Data) (adds : List (CellId × Data)) : MultiGrid Data :=
  adds.foldl (fun g p => (g.add p.1 p.2).1) g

/-- The items of an `add` sequence carrying exactly the cell id `c`, in
insertion order. -/
def addedAt (adds : List (CellId × Data)) (c : CellId) : List Data :=
  (adds.filter fun p => p.1 == c).map Prod.snd

/-- A compressed one-cell grid holding the single item `7`: the state of a
`1 × 1` grid after `add((0), 7)` and `compress()`. -/
def sampleGrid1 : MultiGrid Nat where
  grid_size_ := [1]
  num_cells_ := 1
  compressed_ := true
  raw_data_ := { data := [7], cell_ids := [[0]] }
  compressed_data_ :=
    { data := [7]
      num_data_per_cell := [1]
      first_data_id_per_cell := [0]
      next_data_id_per_cell_buff := [1] }

/-- A freshly constructed `2 × 2` grid (never compressed, nothing added). -/
def sampleGrid22 : MultiGrid Nat where
  grid_size_ := [2, 2]
  num_cells_ := 4
  compressed_ := false
  raw_data_ := { data := [], cell_ids := [] }
  compressed_data_ :=
    { data := []
      num_data_per_cell := [0, 0, 0, 0]
      first_data_id_per_cell := [0, 0, 0, 0]
      next_data_id_per_cell_buff := [0, 0, 0, 0] }

/-- The state the constructor produces for the grid `65536 × 65536`: the
`int`-accumulated cell count is `0`, so all three per-cell arrays are
empty. -/
def sampleGridBig : MultiGrid Nat where
  grid_size_ := [65536, 65536]
  num_cells_ := 0
  compressed_ := false
  raw_data_ := { data := [], cell_ids := [] }
  compressed_data_ :=
    { data := []
      num_data_per_cell := []
      first_data_id_per_cell := []
      next_data_id_per_cell_buff := [] }

theorem linLoopExact_eq (l : List (Nat × Nat)) (s m : Nat) :
    linLoopExact l s m = s + m * linSimple l := by
  induction l generalizing s m with
  | nil => simp [linLoopExact, linSimple]
  | cons p rest ih => simp only [linLoopExact, linSimple, ih]; ring

theorem linearizeExact_cons (n : Nat) (ns : List Nat) (c : Nat) (cs : List Nat) :
    linearizeExact (n :: ns) (c :: cs) = c + n * linearizeExact ns cs := by
  simp only [linearizeExact, List.zip_cons_cons, linLoopExact_eq, linSimple]
  ring

theorem linearizeExact_lt_prod {gs c : List Nat} (h : ValidCell gs c) :
    linearizeExact gs c < gs.prod := by
  induction h with
  | nil => simp [linearizeExact, linLoopExact]
  | cons h₁ h₂ ih =>
    rename_i a b l₁ l₂
    rw [linearizeExact_cons, List.prod_cons]
    have hstep : a + b * linearizeExact l₂ l₁ + 1 ≤ b * (linearizeExact l₂ l₁ + 1) := by
      have hb : a + 1 ≤ b := h₁
      nlinarith
    have hmul : b * (linearizeExact l₂ l₁ + 1) ≤ b * l₂.prod :=
      Nat.mul_le_mul_left _ ih
    omega

theorem delin_linearizeExact {gs c : List Nat} (h : ValidCell gs c) :
    delin gs (linearizeExact gs c) = c := by
  induction h with
  | nil => simp [delin]
  | cons h₁ h₂ ih =>
    rename_i a b l₁ l₂
    rw [linearizeExact_cons, delin]
    have hb : 0 < b := Nat.lt_of_le_of_lt (Nat.zero_le a) h₁
    congr 1
    · rw [Nat.add_mul_mod_self_left, Nat.mod_eq_of_lt h₁]
    · rw [Nat.add_mul_div_left _ _ hb, Nat.div_eq_of_lt h₁, Nat.zero_add, ih]

theorem linearizeExact_delin {gs : List Nat} (hpos : ∀ n ∈ gs, 0 < n) :
    ∀ s, s < gs.prod →
      ValidCell gs (delin gs s) ∧ linearizeExact gs (delin gs s) = s := by
  induction gs with
  | nil =>
    intro s hs
    simp only [List.prod_nil, Nat.lt_one_iff] at hs
    subst hs
    exact ⟨List.Forall₂.nil, by simp [delin, linearizeExact, linLoopExact]⟩
  | cons n ns ih =>
    intro s hs
    have hn : 0 < n := hpos n (by simp)
    have hns : ∀ m ∈ ns, 0 < m := fun m hm => hpos m (by simp [hm])
    rw [List.prod_cons] at hs
    have hdiv : s / n < ns.prod := Nat.div_lt_of_lt_mul hs
    obtain ⟨hv, hl⟩ := ih hns (s / n) hdiv
    refine ⟨List.Forall₂.cons (Nat.mod_lt _ hn) hv, ?_⟩
    rw [delin, linearizeExact_cons, hl, Nat.mod_add_div]

theorem linearizeExact_formula {gs c : List Nat} (h : ValidCell gs c) :
    linearizeExact gs c
      = ∑ i in Finset.range gs.length, c.getD i 0 * (gs.take i).prod := by
  induction h with
  | nil => simp [linearizeExact, linLoopExact]
  | cons h₁ h₂ ih =>
    rename_i a b l₁ l₂
    rw [linearizeExact_cons, List.length_cons, Finset.sum_range_succ']
    have hshift :
        ∀ i, (a :: l₁).getD (i + 1) 0 * ((b :: l₂).take (i + 1)).prod
          = b * (l₁.getD i 0 * (l₂.take i).prod) := by
      intro i
      simp [List.take_succ_cons, List.prod_cons]
      ring
    simp only [hshift, ← Finset.mul_sum, ← ih]
    simp [List.getD]
    ring

theorem linLoop_no_wrap {c gs : List Nat} (h : ValidCell gs c)
    (hpos : ∀ n ∈ gs, 1 ≤ n) :
    ∀ s m : Nat, s < m → m * gs.prod < 2 ^ 64 →
      linLoop (c.zip gs) s m = linLoopExact (c.zip gs) s m := by
  induction h with
  | nil => intro s m _ _; rfl
  | cons h₁ h₂ ih =>
    rename_i a b l₁ l₂
    intro s m hsm hbound
    have hl2 : ∀ n ∈ l₂, 1 ≤ n := fun n hn => hpos n (by simp [hn])
    have hprod2 : 1 ≤ l₂.prod := List.one_le_prod_of_one_le hl2
    rw [List.prod_cons] at hbound
    have hassoc : m * b * l₂.prod = m * (b * l₂.prod) := Nat.mul_assoc m b l₂.prod
    have hmble : m * b ≤ m * b * l₂.prod := Nat.le_mul_of_pos_right _ hprod2
    have hmb64 : m * b < 2 ^ 64 := by omega
    have hm1 : 1 ≤ m := by omega
    have ham : a * m < m * b := by
      have hh : a * m < b * m := (Nat.mul_lt_mul_right hm1).mpr h₁
      rw [Nat.mul_comm b m] at hh
      exact hh
    have hsum : s + a * m < m * b := by
      have hle : a * m ≤ (b - 1) * m := Nat.mul_le_mul_right m (by omega)
      have hbm : (b - 1) * m = b * m - m := by rw [Nat.sub_mul, Nat.one_mul]
      have hmle : m ≤ b * m := Nat.le_mul_of_pos_left m (by omega)
      have hcomm : b * m = m * b := Nat.mul_comm b m
      omega
    show linLoop ((a, b) :: l₁.zip l₂) s m = linLoopExact ((a, b) :: l₁.zip l₂) s m
    rw [linLoop, linLoopExact]
    have e1 : a * m % 2 ^ 64 = a * m := Nat.mod_eq_of_lt (by omega)
    have e2 : (s + a * m) % 2 ^ 64 = s + a * m := Nat.mod_eq_of_lt (by omega)
    have e3 : m * b % 2 ^ 64 = m * b := Nat.mod_eq_of_lt hmb64
    rw [e1, e2, e3]
    exact ih hl2 (s + a * m) (m * b) hsum (by rw [Nat.mul_assoc]; exact hbound)

theorem linearize_eq_exact {gs c : List Nat} (hpos : ∀ n ∈ gs, 1 ≤ n)
    (hprod : gs.prod < 2 ^ 64) (hc : ValidCell gs c) :
    linearize gs c = linearizeExact gs c :=
  linLoop_no_wrap hc hpos 0 1 Nat.zero_lt_one (by simpa using hprod)

theorem linearize_lt_prod {gs c : List Nat} (hpos : ∀ n ∈ gs, 1 ≤ n)
    (hprod : gs.prod < 2 ^ 64) (h : ValidCell gs c) :
    linearize gs c < gs.prod := by
  rw [linearize_eq_exact hpos hprod h]
  exact linearizeExact_lt_prod h

theorem delin_linearize {gs c : List Nat} (hpos : ∀ n ∈ gs, 1 ≤ n)
    (hprod : gs.prod < 2 ^ 64) (h : ValidCell gs c) :
    delin gs (linearize gs c) = c := by
  rw [linearize_eq_exact hpos hprod h]
  exact delin_linearizeExact h

/-- Claim C3, as frozen, is false on the code: on the grid
`(2^32 + 1) × (2^32 + 1)` — constructible, since the `int`-accumulated
`num_cells_` is `1` and nothing overflows the arrays' use — the `size_t`
linearization wraps and the two distinct valid cells `(0, 0)` and
`(1, 2^32 − 1)` share the storage id `0`:
`1 + (2^32 − 1)·(2^32 + 1) = 2^64 ≡ 0 (mod 2^64)`. -/
theorem linearize_not_injective :
    numCellsInit [2 ^ 32 + 1, 2 ^ 32 + 1] = 1
    ∧ ValidCell [2 ^ 32 + 1, 2 ^ 32 + 1] [0, 0]
    ∧ ValidCell [2 ^ 32 + 1, 2 ^ 32 + 1] [1, 2 ^ 32 - 1]
    ∧ ([0, 0] : List Nat) ≠ [1, 2 ^ 32 - 1]
    ∧ linearize [2 ^ 32 + 1, 2 ^ 32 + 1] [0, 0] = 0
    ∧ linearize [2 ^ 32 + 1, 2 ^ 32 + 1] [1, 2 ^ 32 - 1] = 0 := by
  refine ⟨by decide, by decide, by decide, by decide, by decide, by decide⟩

/-- Claim C3 (amended): for every valid grid size (all components at least
1) whose total cell count `∏ n_i` is below `2 ^ 64` — so the `size_t`
arithmetic of the loop never wraps — `linearize` computes
`Σ c_i · (∏_{j<i} n_j)` and is a bijection from the valid cell ids onto
`[0, ∏ n_i)`. -/
theorem linearize_formula_and_bijection (gs : List Nat) (hpos : ∀ n ∈ gs, 1 ≤ n)
    (hprod : gs.prod < 2 ^ 64) :
    (∀ c, ValidCell gs c →
        linearize gs c = ∑ i in Finset.range gs.length, c.getD i 0 * (gs.take i).prod)
    ∧ Set.BijOn (linearize gs) {c | ValidCell gs c} (Set.Iio gs.prod) := by
  refine ⟨fun c hc => ?_, ?_, ?_, ?_⟩
  · rw [linearize_eq_exact hpos hprod hc]
    exact linearizeExact_formula hc
  · intro c hc
    exact Set.mem_Iio.mpr (linearize_lt_prod hpos hprod hc)
  · intro c₁ h₁ c₂ h₂ heq
    have e₁ := delin_linearize hpos hprod h₁
    have e₂ := delin_linearize hpos hprod h₂
    rw [← e₁, ← e₂, heq]
  · intro s hs
    obtain ⟨hv, hl⟩ := linearizeExact_delin hpos s (Set.mem_Iio.mp hs)
    refine ⟨delin gs s, hv, ?_⟩
    rw [linearize_eq_exact hpos hprod hv]
    exact hl

/-- Witness for claim C3 at the concrete grid `3 × 4` of spec scenario S3. -/
theorem linearize_formula_and_bijection_witness :
    (∀ c, ValidCell [3, 4] c →
        linearize [3, 4] c
          = ∑ i in Finset.range 2, c.getD i 0 * (([3, 4] : List Nat).take i).prod)
    ∧ Set.BijOn (linearize [3, 4]) {c | ValidCell [3, 4] c} (Set.Iio 12) := by
  exact linearize_formula_and_bijection [3, 4] (by decide) (by decide)

theorem u64OfInt_coe (m : Nat) (h : m < 2 ^ 64) : u64OfInt (m : Int) = m := by
  unfold u64OfInt
  rw [Int.emod_eq_of_lt (Int.ofNat_nonneg m) (by exact_mod_cast h)]
  exact Int.toNat_ofNat m

theorem intOfU64_small (m : Nat) (h : m < 2 ^ 31) : intOfU64 m = (m : Int) := by
  unfold intOfU64
  have h32 : m % 2 ^ 32 = m := Nat.mod_eq_of_lt (lt_trans h (by norm_num))
  simp only [h32]
  rw [if_pos h]

theorem foldl_accMulStep_exact :
    ∀ (gs : List Nat) (a : Nat), (∀ n ∈ gs, 1 ≤ n) → a * gs.prod < 2 ^ 31 →
      gs.foldl accMulStep (a : Int) = ((a * gs.prod : Nat) : Int) := by
  intro gs
  induction gs with
  | nil => intro a _ _; simp
  | cons n ns ih =>
    intro a hpos hbound
    have hn : 1 ≤ n := hpos n (by simp)
    have hns : ∀ m ∈ ns, 1 ≤ m := fun m hm => hpos m (by simp [hm])
    have hprodns : 1 ≤ ns.prod := List.one_le_prod_of_one_le hns
    rw [List.prod_cons] at hbound
    have han : a * n < 2 ^ 31 := by
      calc a * n = a * n * 1 := by ring
        _ ≤ a * n * ns.prod := Nat.mul_le_mul_left _ hprodns
        _ < 2 ^ 31 := by rw [← Nat.mul_assoc] at hbound; exact hbound
    have ha : a < 2 ^ 64 := by
      have : a ≤ a * n := Nat.le_mul_of_pos_right a hn
      have h31 : (2 : Nat) ^ 31 < 2 ^ 64 := by norm_num
      omega
    have hstep : accMulStep (a : Int) n = ((a * n : Nat) : Int) := by
      unfold accMulStep
      rw [u64OfInt_coe a ha]
      have : a * n % 2 ^ 64 = a * n :=
        Nat.mod_eq_of_lt (lt_trans han (by norm_num))
      rw [this, intOfU64_small _ han]
    rw [List.foldl_cons, hstep, ih (a * n) hns (by rw [Nat.mul_assoc]; exact hbound),
      List.prod_cons, Nat.mul_assoc]

theorem numCellsInit_exact {gs : List Nat} (hpos : ∀ n ∈ gs, 1 ≤ n)
    (hbound : gs.prod < 2 ^ 31) : numCellsInit gs = gs.prod := by
  unfold numCellsInit
  have h1 : ((1 : Nat) : Int) = (1 : Int) := by norm_num
  rw [← h1, foldl_accMulStep_exact gs 1 hpos (by simpa using hbound)]
  rw [Nat.one_mul]
  exact u64OfInt_coe _ (lt_trans hbound (by norm_num))

/-- Claim C9 fails on the code: the constructor accumulates the cell-count
product through a C++ `int` accumulator (the literal `1` passed to
`std::accumulate`), so for the grid `65536 × 65536` the stored `num_cells_`
is `0` while the exact product is `2 ^ 32 = 4294967296`. -/
theorem numCells_truncates :
    numCellsInit [65536, 65536] = 0
      ∧ specNumCells [65536, 65536] = 4294967296
      ∧ (mkMultiGrid Nat [65536, 65536] 0).map MultiGrid.num_cells_ = Except.ok 0 := by
  refine ⟨by decide, by decide, by rfl⟩

theorem cellOk_iff_validCell {gs c : List Nat} (hlen : c.length = gs.length) :
    cellOk gs c = true ↔ ValidCell gs c := by
  rw [cellOk, List.all_eq_true, ValidCell, List.forall₂_iff_zip]
  constructor
  · intro h
    exact ⟨hlen, fun {a b} hab => by simpa using h (a, b) hab⟩
  · rintro ⟨-, h⟩ p hp
    cases p
    simpa using h hp

theorem validCell_cellOk {gs c : List Nat} (h : ValidCell gs c) :
    cellOk gs c = true :=
  (cellOk_iff_validCell h.length_eq).mpr h

theorem validCell_iff_getD {gs c : List Nat} (hlen : c.length = gs.length) :
    ValidCell gs c ↔ ∀ i, i < gs.length → c.getD i 0 < gs.getD i 0 := by
  induction gs generalizing c with
  | nil =>
    rw [List.length_eq_zero.mp hlen]
    simp [ValidCell]
  | cons n ns ih =>
    cases c with
    | nil => simp at hlen
    | cons x xs =>
      simp only [List.length_cons, Nat.succ.injEq] at hlen
      rw [ValidCell, List.forall₂_cons, ← ValidCell, ih hlen]
      constructor
      · rintro ⟨h0, hrest⟩ i hi
        cases i with
        | zero => simpa using h0
        | succ j =>
          simp only [List.getD_cons_succ]
          exact hrest j (Nat.lt_of_succ_lt_succ hi)
      · intro h
        refine ⟨by simpa using h 0 (Nat.succ_pos _), fun j hj => ?_⟩
        simpa using h (j + 1) (Nat.succ_lt_succ hj)

theorem compress_flag {Data : Type} [Inhabited Data] (g : MultiGrid Data) :
    (g.compress).compressed_ = true := by
  unfold MultiGrid.compress
  split
  · assumption
  · rfl

theorem compress_of_compressed {Data : Type} [Inhabited Data] {g : MultiGrid Data}
    (h : g.compressed_ = true) : g.compress = g := by
  unfold MultiGrid.compress
  rw [if_pos h]

/-- Claim C4: `compress` is idempotent — compressing twice equals
compressing once, and a `compress` on an already-compressed grid returns
the state unchanged. -/
theorem compress_idempotent {Data : Type} [Inhabited Data] (g : MultiGrid Data) :
    g.compress.compress = g.compress ∧ (g.compressed_ = true → g.compress = g) :=
  ⟨compress_of_compressed (compress_flag g), fun h => compress_of_compressed h⟩

/-- Witness for claim C4 on a concrete compressed one-cell grid. -/
theorem compress_idempotent_witness :
    sampleGrid1.compress = sampleGrid1
    ∧ sampleGrid1.compress.compress = sampleGrid1.compress :=
  ⟨(compress_idempotent sampleGrid1).2 rfl, (compress_idempotent sampleGrid1).1⟩

/-- Claim C5: `add` fails with `OutOfRange` exactly when some coordinate
reaches the grid extent; a failing call returns the state unchanged; a
successful call appends the item and the cell id to the raw sequences and
leaves the flag false. -/
theorem add_spec {Data : Type} (g : MultiGrid Data) (cell_id : CellId) (d : Data)
    (hlen : cell_id.length = g.grid_size_.length) :
    ((g.add cell_id d).2 = some GridError.OutOfRange
        ↔ ∃ i, i < g.grid_size_.length ∧ g.grid_size_.getD i 0 ≤ cell_id.getD i 0)
    ∧ ((g.add cell_id d).2 ≠ none → (g.add cell_id d).1 = g)
    ∧ (ValidCell g.grid_size_ cell_id →
        g.add cell_id d
          = ({ g with
                compressed_ := false
                raw_data_ :=
                  { data := g.raw_data_.data ++ [d]
                    cell_ids := g.raw_data_.cell_ids ++ [cell_id] } }, none)) := by
  by_cases hv : ValidCell g.grid_size_ cell_id
  · have hok : cellOk g.grid_size_ cell_id = true := validCell_cellOk hv
    have hones := (validCell_iff_getD hlen).mp hv
    have hadd : g.add cell_id d
        = ({ g with
              compressed_ := false
              raw_data_ :=
                { data := g.raw_data_.data ++ [d]
                  cell_ids := g.raw_data_.cell_ids ++ [cell_id] } }, none) := by
      unfold MultiGrid.add
      rw [if_neg (by simp [hok])]
    refine ⟨?_, ?_, fun _ => hadd⟩
    · rw [hadd]
      constructor
      · intro h
        exact Option.noConfusion h
      · rintro ⟨i, hi, hge⟩
        exact absurd (hones i hi) (Nat.not_lt.mpr hge)
    · rw [hadd]
      simp
  · have hok : cellOk g.grid_size_ cell_id = false := by
      cases hc : cellOk g.grid_size_ cell_id
      · rfl
      · exact absurd ((cellOk_iff_validCell hlen).mp hc) hv
    have hadd : g.add cell_id d = (g, some GridError.OutOfRange) := by
      unfold MultiGrid.add
      rw [if_pos (by simp [hok])]
    have hbad : ∃ i, i < g.grid_size_.length ∧ g.grid_size_.getD i 0 ≤ cell_id.getD i 0 := by
      by_contra hno
      push_neg at hno
      exact hv ((validCell_iff_getD hlen).mpr fun i hi => hno i hi)
    exact ⟨by rw [hadd]; simpa using hbad, fun _ => by rw [hadd], fun h => absurd h hv⟩

/-- Witness for claim C5: spec scenario S5, adding at `(2, 0)` on a `2 × 2`
grid fails and leaves the fresh grid unchanged. -/
theorem add_spec_witness :
    (sampleGrid22.add [2, 0] 5).2 = some GridError.OutOfRange
    ∧ (sampleGrid22.add [2, 0] 5).1 = sampleGrid22 := by
  refine ⟨((add_spec sampleGrid22 [2, 0] 5 (by decide)).1).mpr ⟨0, by decide, by decide⟩, ?_⟩
  exact (add_spec sampleGrid22 [2, 0] 5 (by decide)).2.1 (by decide)

/-- Claim C7, as frozen, is false on the code: at the grid `65536 × 65536`
the constructor succeeds, but because the `int`-accumulated `num_cells_` is
`0` (claim C9) the three per-cell arrays are allocated with length `0`,
not `C = 2^32`. -/
theorem mkMultiGrid_cex :
    mkMultiGrid Nat [65536, 65536] 0 = Except.ok sampleGridBig
    ∧ sampleGridBig.compressed_data_.num_data_per_cell.length = 0
    ∧ sampleGridBig.compressed_data_.first_data_id_per_cell.length = 0
    ∧ sampleGridBig.compressed_data_.next_data_id_per_cell_buff.length = 0
    ∧ specNumCells [65536, 65536] = 4294967296 :=
  ⟨rfl, rfl, rfl, rfl, by decide⟩

/-- Claim C7 (amended): for a grid whose total cell count `∏ n_i` is below
`2 ^ 31` — so the `int`-accumulated `num_cells_` is the exact product and
the per-cell allocations are feasible — the constructor fails with
`InvalidShape` if and only if some extent is zero, and on success the
initial state has the flag false, an empty raw buffer, and the three
per-cell arrays allocated with length `C = ∏ n_i`, zero-initialized. -/
theorem mkMultiGrid_spec (Data : Type) [Inhabited Data] (gs : GridSize) (buff : Nat)
    (hbound : gs.prod < 2 ^ 31) :
    (mkMultiGrid Data gs buff = Except.error GridError.InvalidShape ↔ 0 ∈ gs)
    ∧ (0 ∉ gs →
        mkMultiGrid Data gs buff
          = Except.ok
            { grid_size_ := gs, num_cells_ := gs.prod, compressed_ := false,
              raw_data_ := { data := [], cell_ids := [] },
              compressed_data_ :=
                { data := []
                  num_data_per_cell := List.replicate gs.prod 0
                  first_data_id_per_cell := List.replicate gs.prod 0
                  next_data_id_per_cell_buff := List.replicate gs.prod 0 } }) := by
  have hany : ((gs.any fun n => n == 0) = true) ↔ 0 ∈ gs := by
    rw [List.any_eq_true]
    constructor
    · rintro ⟨x, hx, hx0⟩
      rw [beq_iff_eq] at hx0
      rwa [← hx0]
    · intro h
      exact ⟨0, h, by simp⟩
  refine ⟨?_, ?_⟩
  · unfold mkMultiGrid
    by_cases hz : 0 ∈ gs
    · rw [if_pos (hany.mpr hz)]
      simpa using hz
    · rw [if_neg fun h => hz (hany.mp h)]
      simpa using hz
  · intro hz
    have hpos : ∀ n ∈ gs, 1 ≤ n := by
      intro n hn
      have hne : n ≠ 0 := fun e => hz (e ▸ hn)
      omega
    have hnc : numCellsInit gs = gs.prod := numCellsInit_exact hpos hbound
    unfold mkMultiGrid
    rw [if_neg fun h => hz (hany.mp h), hnc]

/-- Witness for claim C7 at the grid `2 × 3`, whose cell count `6` is the
exact product. -/
theorem mkMultiGrid_spec_witness :
    mkMultiGrid Nat [2, 3] 0
      = Except.ok
        { grid_size_ := [2, 3], num_cells_ := ([2, 3] : List Nat).prod,
          compressed_ := false,
          raw_data_ := { data := [], cell_ids := [] },
          compressed_data_ :=
            { data := []
              num_data_per_cell := List.replicate (([2, 3] : List Nat).prod) 0
              first_data_id_per_cell := List.replicate (([2, 3] : List Nat).prod) 0
              next_data_id_per_cell_buff :=
                List.replicate (([2, 3] : List Nat).prod) 0 } } :=
  (mkMultiGrid_spec Nat [2, 3] 0 (by decide)).2 (by decide)

/-- Claim C6: `enumerateData` fails with `NotCompressed` exactly when the
compressed flag is false; with the flag set and an in-range cell id it
returns the view `[start[s], start[s] + count[s])`; `add` and `clear` clear
the flag and `compress` sets it. -/
theorem enumerateData_spec {Data : Type} [Inhabited Data] (g : MultiGrid Data)
    (cell_id : CellId) :
    (g.enumerateData cell_id = Except.error GridError.NotCompressed
        ↔ g.compressed_ = false)
    ∧ (g.compressed_ = true → ValidCell g.grid_size_ cell_id →
        g.enumerateData cell_id
          = Except.ok
            { beginIdx :=
                g.compressed_data_.first_data_id_per_cell.getD
                  (linearize g.grid_size_ cell_id) 0
              endIdx :=
                g.compressed_data_.first_data_id_per_cell.getD
                  (linearize g.grid_size_ cell_id) 0
                + g.compressed_data_.num_data_per_cell.getD
                  (linearize g.grid_size_ cell_id) 0 })
    ∧ (∀ d, (g.add cell_id d).2 = none → ((g.add cell_id d).1).compressed_ = false)
    ∧ (g.clear).compressed_ = false
    ∧ (g.compress).compressed_ = true := by
  refine ⟨?_, ?_, ?_, rfl, compress_flag g⟩
  · cases hc : g.compressed_
    · simp only [MultiGrid.enumerateData, hc]
      simp
    · simp only [MultiGrid.enumerateData, hc]
      constructor
      · intro h
        by_cases hok : cellOk g.grid_size_ cell_id = true <;> simp [hok] at h
      · intro h
        exact absurd h (by simp)
  · intro hc hv
    simp only [MultiGrid.enumerateData, hc, validCell_cellOk hv]
    simp
  · intro d hok
    by_cases hc : cellOk g.grid_size_ cell_id = true
    · have hadd : g.add cell_id d
          = ({ g with
                compressed_ := false
                raw_data_ :=
                  { data := g.raw_data_.data ++ [d]
                    cell_ids := g.raw_data_.cell_ids ++ [cell_id] } }, none) := by
        unfold MultiGrid.add
        rw [if_neg fun hn => hn hc]
      rw [hadd]
    · have hadd : g.add cell_id d = (g, some GridError.OutOfRange) := by
        unfold MultiGrid.add
        rw [if_pos hc]
      rw [hadd] at hok
      exact Option.noConfusion hok

/-- Witness for claim C6 on a compressed one-cell grid. -/
theorem enumerateData_spec_witness :
    sampleGrid1.enumerateData [0] = Except.ok { beginIdx := 0, endIdx := 0 + 1 } := by
  exact (enumerateData_spec sampleGrid1 [0]).2.1 rfl (by decide)

/-- Claim C10: when the grid is not compressed and the cell id is also out
of range, `enumerateData` reports `NotCompressed` — the compressed-state
check precedes cell-id validation. -/
theorem enumerateData_notCompressed_priority {Data : Type} (g : MultiGrid Data)
    (cell_id : CellId) (h1 : g.compressed_ = false)
    (_h2 : cellOk g.grid_size_ cell_id = false) :
    g.enumerateData cell_id = Except.error GridError.NotCompressed := by
  unfold MultiGrid.enumerateData
  rw [if_pos (by simp [h1])]

/-- Witness for claim C10: a fresh (never compressed) `2 × 2` grid queried
at the out-of-range cell `(2, 0)`. -/
theorem enumerateData_notCompressed_priority_witness :
    sampleGrid22.enumerateData [2, 0] = Except.error GridError.NotCompressed :=
  enumerateData_notCompressed_priority sampleGrid22 [2, 0] rfl (by decide)

theorem getD_set_self_nat (l : List Nat) (i v : Nat) (h : i < l.length) :
    (l.set i v).getD i 0 = v := by
  simp [List.getD_eq_getElem?_getD, List.getElem?_set_self h]

theorem getD_set_ne_nat (l : List Nat) {i j : Nat} (v : Nat) (h : i ≠ j) :
    (l.set i v).getD j 0 = l.getD j 0 := by
  simp [List.getD_eq_getElem?_getD, List.getElem?_set_ne h]

theorem sum_set_succ (l : List Nat) (i : Nat) (h : i < l.length) :
    (l.set i (l.getD i 0 + 1)).sum = l.sum + 1 := by
  induction l generalizing i with
  | nil => simp at h
  | cons x xs ih =>
    cases i with
    | zero => simp [List.getD_cons_zero]; omega
    | succ j =>
      have hj : j < xs.length := Nat.lt_of_succ_lt_succ h
      rw [List.set_cons_succ, List.getD_cons_succ, List.sum_cons, ih j hj, List.sum_cons]
      omega

theorem countLoop_cons (gs : GridSize) (c : CellId) (cs : List CellId)
    (init : List Nat) :
    countLoop gs (c :: cs) init
      = countLoop gs cs
          (init.set (linearize gs c) (init.getD (linearize gs c) 0 + 1)) := rfl

theorem countLoop_length (gs : GridSize) (cids : List CellId) :
    ∀ init : List Nat, (countLoop gs cids init).length = init.length := by
  induction cids with
  | nil => intro init; rfl
  | cons c cs ih =>
    intro init
    rw [countLoop_cons, ih]
    simp

theorem countLoop_getD (gs : GridSize) (cids : List CellId) :
    ∀ (init : List Nat) (s : Nat), s < init.length →
      (∀ c ∈ cids, linearize gs c < init.length) →
      (countLoop gs cids init).getD s 0
        = init.getD s 0 + (cids.filter fun c => linearize gs c == s).length := by
  induction cids with
  | nil => intro init s hs hall; simp [countLoop]
  | cons c cs ih =>
    intro init s hs hall
    have hlc : linearize gs c < init.length := hall c (List.mem_cons_self c cs)
    have hall' : ∀ x ∈ cs,
        linearize gs x
          < (init.set (linearize gs c) (init.getD (linearize gs c) 0 + 1)).length := by
      intro x hx
      simpa using hall x (List.mem_cons_of_mem c hx)
    rw [countLoop_cons, ih _ s (by simpa using hs) hall']
    by_cases he : linearize gs c = s
    · rw [he, getD_set_self_nat _ _ _ (he ▸ hlc)]
      simp only [List.filter_cons, he, beq_self_eq_true, if_pos, List.length_cons]
      omega
    · rw [getD_set_ne_nat _ _ he]
      have : (linearize gs c == s) = false := beq_eq_false_iff_ne.mpr he
      simp only [List.filter_cons, this]
      simp

theorem countLoop_sum (gs : GridSize) (cids : List CellId) :
    ∀ init : List Nat, (∀ c ∈ cids, linearize gs c < init.length) →
      (countLoop gs cids init).sum = init.sum + cids.length := by
  induction cids with
  | nil => intro init _; simp [countLoop]
  | cons c cs ih =>
    intro init hall
    have hlc : linearize gs c < init.length := hall c (List.mem_cons_self c cs)
    have hall' : ∀ x ∈ cs,
        linearize gs x
          < (init.set (linearize gs c) (init.getD (linearize gs c) 0 + 1)).length := by
      intro x hx
      simpa using hall x (List.mem_cons_of_mem c hx)
    rw [countLoop_cons, ih _ hall', sum_set_succ _ _ hlc]
    simp
    omega

theorem prefixLoop_length (l : List Nat) : ∀ a, (prefixLoop l a).length = l.length := by
  induction l with
  | nil => intro a; rfl
  | cons c cs ih => intro a; simp [prefixLoop, ih]

theorem prefixLoop_getD (l : List Nat) :
    ∀ (a i : Nat), i < l.length →
      (prefixLoop l a).getD i 0 = a + (l.take i).sum := by
  induction l with
  | nil => intro a i hi; simp at hi
  | cons c cs ih =>
    intro a i hi
    cases i with
    | zero => simp [prefixLoop]
    | succ j =>
      rw [prefixLoop, List.getD_cons_succ, ih (a + c) j (Nat.lt_of_succ_lt_succ hi)]
      simp [List.take_succ_cons]
      omega

theorem take_sum_getD (l : List Nat) :
    ∀ s, s ≤ l.length → (l.take s).sum = ∑ k in Finset.range s, l.getD k 0 := by
  intro s
  induction s with
  | zero => intro _; simp
  | succ t iht =>
    intro hs
    have htlt : t < l.length := hs
    rw [Finset.sum_range_succ, ← iht (Nat.le_of_lt htlt)]
    rw [List.take_succ, List.sum_append, List.getElem?_eq_getElem htlt]
    simp [List.getD_eq_getElem?_getD, List.getElem?_eq_getElem htlt]

theorem cellEntries_append {Data : Type} (gs : GridSize)
    (l₁ l₂ : List (CellId × Data)) (s : Nat) :
    cellEntries gs (l₁ ++ l₂) s = cellEntries gs l₁ s ++ cellEntries gs l₂ s := by
  simp [cellEntries, List.filter_append]

theorem cntF_append {Data : Type} (gs : GridSize) (l₁ l₂ : List (CellId × Data))
    (s : Nat) : cntF gs (l₁ ++ l₂) s = cntF gs l₁ s + cntF gs l₂ s := by
  simp [cntF, cellEntries_append]

theorem cellEntries_singleton {Data : Type} (gs : GridSize) (p : CellId × Data)
    (s : Nat) :
    cellEntries gs [p] s = if linearize gs p.1 = s then [p.2] else [] := by
  by_cases h : linearize gs p.1 = s
  · simp [cellEntries, List.filter, h]
  · have hb : (linearize gs p.1 == s) = false := beq_eq_false_iff_ne.mpr h
    simp [cellEntries, List.filter, hb, h]

theorem cntF_singleton {Data : Type} (gs : GridSize) (p : CellId × Data) (s : Nat) :
    cntF gs [p] s = if linearize gs p.1 = s then 1 else 0 := by
  rw [cntF, cellEntries_singleton]
  split <;> rfl

theorem cntF_length {Data : Type} (gs : GridSize) (l : List (CellId × Data))
    (s : Nat) : (cellEntries gs l s).length = cntF gs l s := rfl

theorem fstF_succ {Data : Type} (gs : GridSize) (R : List (CellId × Data))
    (s : Nat) : fstF gs R (s + 1) = fstF gs R s + cntF gs R s :=
  Finset.sum_range_succ _ _

theorem fstF_mono {Data : Type} (gs : GridSize) (R : List (CellId × Data))
    {s t : Nat} (h : s ≤ t) : fstF gs R s ≤ fstF gs R t :=
  Finset.sum_le_sum_of_subset (Finset.range_subset.mpr h)

theorem fstF_total {Data : Type} (gs : GridSize) (R : List (CellId × Data))
    (C : Nat) (hall : ∀ p ∈ R, linearize gs p.1 < C) : fstF gs R C = R.length := by
  induction R with
  | nil => simp [fstF, cntF, cellEntries]
  | cons p R ih =>
    have hp : linearize gs p.1 < C := hall p (List.mem_cons_self p R)
    have hR : ∀ q ∈ R, linearize gs q.1 < C :=
      fun q hq => hall q (List.mem_cons_of_mem p hq)
    have hsplit : fstF gs (p :: R) C
        = ∑ k in Finset.range C, (cntF gs [p] k + cntF gs R k) := by
      unfold fstF
      exact Finset.sum_congr rfl fun k _ => by
        rw [show p :: R = [p] ++ R from rfl, cntF_append]
    rw [hsplit, Finset.sum_add_distrib]
    have hR_len := ih hR
    unfold fstF at hR_len
    have hone : ∑ k in Finset.range C, cntF gs [p] k = 1 := by
      simp only [cntF_singleton]
      rw [Finset.sum_ite_eq]
      simp [Finset.mem_range, hp]
    rw [hR_len, hone]
    simp [Nat.add_comm]

theorem scatterStep_eq {Data : Type} (gs : GridSize) (d : List Data) (nx : List Nat)
    (p : CellId × Data) :
    scatterStep gs (d, nx) p
      = (d.set (nx.getD (linearize gs p.1) 0) p.2,
         nx.set (linearize gs p.1) (nx.getD (linearize gs p.1) 0 + 1)) := rfl

theorem scatterLoop_cons {Data : Type} (gs : GridSize) (p : CellId × Data)
    (suf : List (CellId × Data)) (st : List Data × List Nat) :
    scatterLoop gs (p :: suf) st = scatterLoop gs suf (scatterStep gs st p) := rfl

theorem scatterLoop_inv {Data : Type} (gs : GridSize) (C : Nat)
    (R : List (CellId × Data)) (hallR : ∀ p ∈ R, linearize gs p.1 < C) :
    ∀ (suf : List (CellId × Data)), ∀ (pre : List (CellId × Data))
      (d : List Data) (nx : List Nat),
      pre ++ suf = R →
      d.length = R.length →
      nx.length = C →
      (∀ s, s < C → nx.getD s 0 = fstF gs R s + cntF gs pre s) →
      (∀ s, s < C → ∀ j, j < cntF gs pre s →
        d[fstF gs R s + j]? = (cellEntries gs pre s)[j]?) →
      (scatterLoop gs suf (d, nx)).1.length = R.length
        ∧ (∀ s, s < C → (scatterLoop gs suf (d, nx)).2.getD s 0
            = fstF gs R s + cntF gs R s)
        ∧ (∀ s, s < C → ∀ j, j < cntF gs R s →
            (scatterLoop gs suf (d, nx)).1[fstF gs R s + j]?
              = (cellEntries gs R s)[j]?) := by
  intro suf
  induction suf with
  | nil =>
    intro pre d nx hpre hd hnx hnxinv hdinv
    have hpreR : pre = R := by simpa using hpre
    subst hpreR
    exact ⟨hd, fun s hs => hnxinv s hs, fun s hs j hj => hdinv s hs j hj⟩
  | cons p suf ih =>
    intro pre d nx hpre hd hnx hnxinv hdinv
    have hpmem : p ∈ R := by
      rw [← hpre]
      exact List.mem_append_right pre (List.mem_cons_self p suf)
    have hs0 : linearize gs p.1 < C := hallR p hpmem
    have hcnt_full : ∀ s, cntF gs R s = cntF gs pre s + cntF gs (p :: suf) s := by
      intro s
      rw [← hpre, cntF_append]
    have hcnt_cons : ∀ s, cntF gs (p :: suf) s = cntF gs [p] s + cntF gs suf s := by
      intro s
      rw [show p :: suf = [p] ++ suf from rfl, cntF_append]
    have hcnt_p : cntF gs [p] (linearize gs p.1) = 1 := by
      rw [cntF_singleton]
      simp
    have hcnt_lt : cntF gs pre (linearize gs p.1) < cntF gs R (linearize gs p.1) := by
      have h1 := hcnt_full (linearize gs p.1)
      have h2 := hcnt_cons (linearize gs p.1)
      omega
    have hub : ∀ s, s < C → fstF gs R s + cntF gs R s ≤ R.length := by
      intro s hs
      calc fstF gs R s + cntF gs R s = fstF gs R (s + 1) := (fstF_succ gs R s).symm
        _ ≤ fstF gs R C := fstF_mono gs R hs
        _ = R.length := fstF_total gs R C hallR
    have hw : nx.getD (linearize gs p.1) 0
        = fstF gs R (linearize gs p.1) + cntF gs pre (linearize gs p.1) :=
      hnxinv _ hs0
    have hwlt : nx.getD (linearize gs p.1) 0 < R.length := by
      have := hub _ hs0
      omega
    -- positions written for other cells stay untouched
    have hq_ne_w : ∀ s, s < C → s ≠ linearize gs p.1 → ∀ j, j < cntF gs pre s →
        fstF gs R s + j ≠ nx.getD (linearize gs p.1) 0 := by
      intro s hs hne j hj
      rw [hw]
      have hcnt_le : cntF gs pre s ≤ cntF gs R s := by
        have := hcnt_full s
        omega
      rcases Nat.lt_or_ge s (linearize gs p.1) with hlt | hge
      · have h2 : fstF gs R s + cntF gs R s = fstF gs R (s + 1) := (fstF_succ gs R s).symm
        have h3 : fstF gs R (s + 1) ≤ fstF gs R (linearize gs p.1) := fstF_mono gs R hlt
        omega
      · have hgt : linearize gs p.1 < s := by omega
        have h2 : fstF gs R (linearize gs p.1) + cntF gs R (linearize gs p.1)
            = fstF gs R (linearize gs p.1 + 1) := (fstF_succ gs R _).symm
        have h3 : fstF gs R (linearize gs p.1 + 1) ≤ fstF gs R s := fstF_mono gs R hgt
        omega
    rw [scatterLoop_cons, scatterStep_eq]
    apply ih (pre ++ [p])
    · rw [List.append_assoc]
      simpa using hpre
    · simpa using hd
    · simpa using hnx
    · -- next-pointer invariant for the longer prefix
      intro s hs
      by_cases hss : s = linearize gs p.1
      · subst hss
        rw [getD_set_self_nat _ _ _ (by rw [hnx]; exact hs0), hw, cntF_append, hcnt_p]
        omega
      · rw [getD_set_ne_nat _ _ fun h => hss h.symm, hnxinv s hs, cntF_append,
          cntF_singleton]
        have : ¬ linearize gs p.1 = s := fun h => hss h.symm
        rw [if_neg this]
        omega
    · -- data invariant for the longer prefix
      intro s hs j hj
      rw [cntF_append] at hj
      rw [cellEntries_append]
      by_cases hss : s = linearize gs p.1
      · subst hss
        rw [hcnt_p] at hj
        rw [cellEntries_singleton, if_pos rfl]
        rcases Nat.lt_or_ge j (cntF gs pre (linearize gs p.1)) with hj1 | hj2
        · have hne : nx.getD (linearize gs p.1) 0 ≠ fstF gs R (linearize gs p.1) + j := by
            rw [hw]
            omega
          rw [List.getElem?_set_ne hne, hdinv _ hs j hj1,
            List.getElem?_append_left (by rw [cntF_length]; exact hj1)]
        · have hjeq : j = cntF gs pre (linearize gs p.1) := by omega
          subst hjeq
          rw [← hw, List.getElem?_set_self (by rw [hd]; exact hwlt)]
          have hidx : cntF gs pre (linearize gs p.1)
              = (cellEntries gs pre (linearize gs p.1)).length := (cntF_length _ _ _).symm
          rw [hidx, List.getElem?_concat_length]
      · rw [cellEntries_singleton]
        have : ¬ linearize gs p.1 = s := fun h => hss h.symm
        rw [if_neg this, List.append_nil]
        rw [cntF_singleton, if_neg this] at hj
        have hne : nx.getD (linearize gs p.1) 0 ≠ fstF gs R s + j :=
          fun h => hq_ne_w s hs hss j (by omega) h.symm
        rw [List.getElem?_set_ne hne]
        exact hdinv s hs j (by omega)

theorem vecResize_length {Data : Type} [Inhabited Data] (v : List Data) (n : Nat) :
    (vecResize v n).length = n := by
  simp [vecResize]
  omega

theorem getD_map_zero {α : Type} (l : List α) (s : Nat) :
    (l.map fun _ => 0).getD s 0 = 0 := by
  induction l generalizing s with
  | nil => simp
  | cons x xs ih => cases s <;> simp [List.getD_cons_zero, List.getD_cons_succ, ih]

theorem sum_map_zero {α : Type} (l : List α) : (l.map fun _ => (0 : Nat)).sum = 0 := by
  induction l with
  | nil => rfl
  | cons x xs ih => simp [ih]

theorem cntF_nil {Data : Type} (gs : GridSize) (s : Nat) :
    cntF gs ([] : List (CellId × Data)) s = 0 := rfl

theorem filter_count_zip {Data : Type} (gs : GridSize) (cids : List CellId)
    (datas : List Data) (hlen : cids.length = datas.length) (s : Nat) :
    (cids.filter fun c => linearize gs c == s).length
      = cntF gs (cids.zip datas) s := by
  have hmap : (cids.zip datas).map Prod.fst = cids :=
    List.map_fst_zip cids datas (le_of_eq hlen)
  rw [cntF, cellEntries, List.length_map]
  conv_lhs => rw [← hmap]
  rw [List.filter_map, List.length_map]
  rfl

theorem compress_eq {Data : Type} [Inhabited Data] (g : MultiGrid Data)
    (hflag : g.compressed_ = false) :
    g.compress
      = { g with
          compressed_ := true
          compressed_data_ :=
            { data :=
                (scatterLoop g.grid_size_ (g.raw_data_.cell_ids.zip g.raw_data_.data)
                  (vecResize g.compressed_data_.data g.raw_data_.data.length,
                   prefixLoop (countLoop g.grid_size_ g.raw_data_.cell_ids
                     (g.compressed_data_.num_data_per_cell.map fun _ => 0)) 0)).1
              num_data_per_cell :=
                countLoop g.grid_size_ g.raw_data_.cell_ids
                  (g.compressed_data_.num_data_per_cell.map fun _ => 0)
              first_data_id_per_cell :=
                prefixLoop (countLoop g.grid_size_ g.raw_data_.cell_ids
                  (g.compressed_data_.num_data_per_cell.map fun _ => 0)) 0
              next_data_id_per_cell_buff :=
                (scatterLoop g.grid_size_ (g.raw_data_.cell_ids.zip g.raw_data_.data)
                  (vecResize g.compressed_data_.data g.raw_data_.data.length,
                   prefixLoop (countLoop g.grid_size_ g.raw_data_.cell_ids
                     (g.compressed_data_.num_data_per_cell.map fun _ => 0)) 0)).2 } } := by
  unfold MultiGrid.compress
  rw [if_neg (by simp [hflag])]

theorem compress_spec {Data : Type} [Inhabited Data] (g : MultiGrid Data)
    (hflag : g.compressed_ = false)
    (hlen : g.raw_data_.cell_ids.length = g.raw_data_.data.length)
    (hcnt_len : g.compressed_data_.num_data_per_cell.length = g.num_cells_)
    (hall : ∀ cid ∈ g.raw_data_.cell_ids,
      linearize g.grid_size_ cid < g.num_cells_) :
    g.compress.compressed_data_.num_data_per_cell.length = g.num_cells_
    ∧ (∀ s, s < g.num_cells_ →
        g.compress.compressed_data_.num_data_per_cell.getD s 0
          = cntF g.grid_size_ (g.raw_data_.cell_ids.zip g.raw_data_.data) s)
    ∧ g.compress.compressed_data_.num_data_per_cell.sum = g.raw_data_.data.length
    ∧ g.compress.compressed_data_.first_data_id_per_cell.length = g.num_cells_
    ∧ (∀ s, s < g.num_cells_ →
        g.compress.compressed_data_.first_data_id_per_cell.getD s 0
          = fstF g.grid_size_ (g.raw_data_.cell_ids.zip g.raw_data_.data) s)
    ∧ g.compress.compressed_data_.data.length = g.raw_data_.data.length
    ∧ (∀ s, s < g.num_cells_ →
        ∀ j, j < cntF g.grid_size_ (g.raw_data_.cell_ids.zip g.raw_data_.data) s →
          (g.compress.compressed_data_.data)[fstF g.grid_size_
              (g.raw_data_.cell_ids.zip g.raw_data_.data) s + j]?
            = (cellEntries g.grid_size_
                (g.raw_data_.cell_ids.zip g.raw_data_.data) s)[j]?) := by
  have hinitlen :
      (g.compressed_data_.num_data_per_cell.map fun _ => (0 : Nat)).length
        = g.num_cells_ := by
    rw [List.length_map]
    exact hcnt_len
  have hall' : ∀ c ∈ g.raw_data_.cell_ids,
      linearize g.grid_size_ c
        < (g.compressed_data_.num_data_per_cell.map fun _ => (0 : Nat)).length := by
    rw [hinitlen]
    exact hall
  have hRlen : (g.raw_data_.cell_ids.zip g.raw_data_.data).length
      = g.raw_data_.data.length := by
    rw [List.length_zip, hlen, Nat.min_self]
  have hRall : ∀ p ∈ g.raw_data_.cell_ids.zip g.raw_data_.data,
      linearize g.grid_size_ p.1 < g.num_cells_ := by
    intro p hp
    apply hall
    have hmem : p.1 ∈ (g.raw_data_.cell_ids.zip g.raw_data_.data).map Prod.fst :=
      List.mem_map_of_mem _ hp
    rwa [List.map_fst_zip _ _ (le_of_eq hlen)] at hmem
  have hcntlen :
      (countLoop g.grid_size_ g.raw_data_.cell_ids
        (g.compressed_data_.num_data_per_cell.map fun _ => 0)).length
        = g.num_cells_ := by
    rw [countLoop_length]
    exact hinitlen
  have hcnt_getD : ∀ s, s < g.num_cells_ →
      (countLoop g.grid_size_ g.raw_data_.cell_ids
        (g.compressed_data_.num_data_per_cell.map fun _ => 0)).getD s 0
        = cntF g.grid_size_ (g.raw_data_.cell_ids.zip g.raw_data_.data) s := by
    intro s hs
    rw [countLoop_getD g.grid_size_ g.raw_data_.cell_ids _ s
        (by rw [hinitlen]; exact hs) hall', getD_map_zero, Nat.zero_add]
    exact filter_count_zip g.grid_size_ _ _ hlen s
  have hsum :
      (countLoop g.grid_size_ g.raw_data_.cell_ids
        (g.compressed_data_.num_data_per_cell.map fun _ => 0)).sum
        = g.raw_data_.data.length := by
    rw [countLoop_sum g.grid_size_ g.raw_data_.cell_ids _ hall', sum_map_zero,
      Nat.zero_add, hlen]
  have hfstlen :
      (prefixLoop (countLoop g.grid_size_ g.raw_data_.cell_ids
        (g.compressed_data_.num_data_per_cell.map fun _ => 0)) 0).length
        = g.num_cells_ := by
    rw [prefixLoop_length]
    exact hcntlen
  have hfst_getD : ∀ s, s < g.num_cells_ →
      (prefixLoop (countLoop g.grid_size_ g.raw_data_.cell_ids
        (g.compressed_data_.num_data_per_cell.map fun _ => 0)) 0).getD s 0
        = fstF g.grid_size_ (g.raw_data_.cell_ids.zip g.raw_data_.data) s := by
    intro s hs
    rw [prefixLoop_getD _ 0 s (by rw [hcntlen]; exact hs), Nat.zero_add]
    rw [take_sum_getD _ s (by rw [hcntlen]; omega)]
    unfold fstF
    exact Finset.sum_congr rfl fun k hk =>
      hcnt_getD k (lt_of_lt_of_le (Finset.mem_range.mp hk) (Nat.le_of_lt hs))
  have hd0len :
      (vecResize g.compressed_data_.data g.raw_data_.data.length).length
        = (g.raw_data_.cell_ids.zip g.raw_data_.data).length := by
    rw [vecResize_length, hRlen]
  obtain ⟨hdatalen, hnxfin, hseg⟩ :=
    scatterLoop_inv g.grid_size_ g.num_cells_
      (g.raw_data_.cell_ids.zip g.raw_data_.data) hRall
      (g.raw_data_.cell_ids.zip g.raw_data_.data) []
      (vecResize g.compressed_data_.data g.raw_data_.data.length)
      (prefixLoop (countLoop g.grid_size_ g.raw_data_.cell_ids
        (g.compressed_data_.num_data_per_cell.map fun _ => 0)) 0)
      (by simp) hd0len hfstlen
      (by
        intro s hs
        rw [cntF_nil, Nat.add_zero]
        exact hfst_getD s hs)
      (by
        intro s hs j hj
        rw [cntF_nil] at hj
        exact absurd hj (Nat.not_lt_zero j))
  rw [compress_eq g hflag]
  refine ⟨hcntlen, hcnt_getD, hsum, hfstlen, hfst_getD, ?_, ?_⟩
  · rw [hdatalen, hRlen]
  · intro s hs j hj
    rw [hseg s hs j hj]

theorem compress_raw {Data : Type} [Inhabited Data] (g : MultiGrid Data) :
    (g.compress).raw_data_ = g.raw_data_ := by
  unfold MultiGrid.compress
  split <;> rfl

theorem compress_grid_size {Data : Type} [Inhabited Data] (g : MultiGrid Data) :
    (g.compress).grid_size_ = g.grid_size_ := by
  unfold MultiGrid.compress
  split <;> rfl

theorem compress_num_cells {Data : Type} [Inhabited Data] (g : MultiGrid Data) :
    (g.compress).num_cells_ = g.num_cells_ := by
  unfold MultiGrid.compress
  split <;> rfl

theorem add_ok_eq {Data : Type} (g : MultiGrid Data) (c : CellId) (d : Data)
    (hok : cellOk g.grid_size_ c = true) :
    g.add c d
      = ({ g with
            compressed_ := false
            raw_data_ :=
              { data := g.raw_data_.data ++ [d]
                cell_ids := g.raw_data_.cell_ids ++ [c] } }, none) := by
  unfold MultiGrid.add
  rw [if_neg fun hn => hn hok]

theorem add_err_eq {Data : Type} (g : MultiGrid Data) (c : CellId) (d : Data)
    (hok : cellOk g.grid_size_ c = false) :
    g.add c d = (g, some GridError.OutOfRange) := by
  unfold MultiGrid.add
  rw [if_pos (by simp [hok])]

theorem mk_ok_inv {Data : Type} [Inhabited Data] {gs : GridSize} {b : Nat}
    {g : MultiGrid Data} (h : mkMultiGrid Data gs b = Except.ok g) :
    g.grid_size_ = gs ∧ g.num_cells_ = numCellsInit gs ∧ g.compressed_ = false
    ∧ g.raw_data_.data = [] ∧ g.raw_data_.cell_ids = []
    ∧ g.compressed_data_.num_data_per_cell = List.replicate (numCellsInit gs) 0
    ∧ g.compressed_data_.first_data_id_per_cell = List.replicate (numCellsInit gs) 0
    ∧ g.compressed_data_.next_data_id_per_cell_buff
        = List.replicate (numCellsInit gs) 0
    ∧ g.compressed_data_.data = []
    ∧ 0 ∉ gs := by
  unfold mkMultiGrid at h
  by_cases hz : (gs.any fun n => n == 0) = true
  · rw [if_pos hz] at h
    exact absurd h (by simp)
  · rw [if_neg hz] at h
    have hg := Except.ok.inj h
    subst hg
    refine ⟨rfl, rfl, rfl, rfl, rfl, rfl, rfl, rfl, rfl, ?_⟩
    intro hmem
    exact hz (List.any_eq_true.mpr ⟨0, hmem, by simp⟩)

theorem reached_wf {Data : Type} [Inhabited Data] {g : MultiGrid Data}
    (h : Reached Data g) :
    StateWF g ∧ (g.grid_size_.prod < 2 ^ 31 → g.compressed_ = true → CSRinv g) := by
  induction h with
  | ctor gs b g hmk =>
    obtain ⟨h1, h2, h3, h4, h5, h6, _, _, _, h10⟩ := mk_ok_inv hmk
    constructor
    · refine ⟨?_, ?_, ?_, ?_, ?_⟩
      · rw [h6, List.length_replicate, h2]
      · simp [h4, h5]
      · rw [h5]
        intro cid hc
        exact absurd hc (List.not_mem_nil cid)
      · rw [h1]
        intro n hn
        have hne : n ≠ 0 := fun e => h10 (e ▸ hn)
        omega
      · rw [h2, h1]
    · intro _ hcmp
      rw [h3] at hcmp
      exact absurd hcmp (by simp)
  | add g c d hclen hg ih =>
    obtain ⟨⟨w1, w2, w3, w4, w5⟩, hcsr⟩ := ih
    by_cases hok : cellOk g.grid_size_ c = true
    · rw [add_ok_eq g c d hok]
      constructor
      · refine ⟨w1, ?_, ?_, w4, w5⟩
        · simp [w2]
        · intro cid hc
          rcases List.mem_append.mp hc with hin | hone
          · exact w3 cid hin
          · rw [List.mem_singleton.mp hone]
            exact (cellOk_iff_validCell hclen).mp hok
      · intro _ hcmp
        exact absurd hcmp (by simp)
    · have hok' : cellOk g.grid_size_ c = false := by
        cases hcv : cellOk g.grid_size_ c
        · rfl
        · exact absurd hcv hok
      rw [add_err_eq g c d hok']
      exact ⟨⟨w1, w2, w3, w4, w5⟩, hcsr⟩
  | clear g hg ih =>
    obtain ⟨⟨w1, _, _, w4, w5⟩, _⟩ := ih
    constructor
    · exact ⟨w1, rfl, fun cid hc => absurd hc (List.not_mem_nil cid), w4, w5⟩
    · intro _ hcmp
      exact absurd hcmp (by simp [MultiGrid.clear])
  | compress g hg ih =>
    by_cases hflag : g.compressed_ = true
    · rw [compress_of_compressed hflag]
      exact ih
    · have hflag' : g.compressed_ = false := by
        cases hcv : g.compressed_
        · rfl
        · exact absurd hcv hflag
      obtain ⟨⟨w1, w2, w3, w4, w5⟩, _⟩ := ih
      constructor
      · refine ⟨?_, ?_, ?_, ?_, ?_⟩
        · rw [compress_eq g hflag']
          show (countLoop _ _ _).length = _
          rw [countLoop_length, List.length_map, w1]
        · rw [compress_raw g]
          exact w2
        · rw [compress_raw g, compress_grid_size g]
          exact w3
        · rw [compress_grid_size g]
          exact w4
        · rw [compress_num_cells g, compress_grid_size g]
          exact w5
      · rw [compress_grid_size g]
        intro hbound _
        have hall : ∀ cid ∈ g.raw_data_.cell_ids,
            linearize g.grid_size_ cid < g.num_cells_ := by
          intro cid hc
          have hlt := linearize_lt_prod w4
            (lt_trans hbound (by norm_num)) (w3 cid hc)
          rw [w5, numCellsInit_exact w4 hbound]
          exact hlt
        obtain ⟨l1, l2, l3, l4, l5, l6, l7⟩ :=
          compress_spec g hflag' w2 w1 hall
        refine ⟨?_, ?_, ?_⟩
        · rw [compress_raw g]
          exact l3
        · rw [compress_raw g]
          exact l6
        · rw [compress_num_cells g]
          intro s hs
          rw [l5 s hs]
          unfold fstF
          exact Finset.sum_congr rfl fun k hk =>
            (l2 k (lt_of_lt_of_le (Finset.mem_range.mp hk) (Nat.le_of_lt hs))).symm

/-- Claim C2, as frozen, is false on the code: the grid `65536 × 65536`
constructs (claim C9 makes its `num_cells_` zero), a valid `add` then
`compress` is a reachable sequence, yet the counts array is empty — its sum
is `0` against `1` raw item. -/
theorem compress_CSR_cex :
    mkMultiGrid Nat [65536, 65536] 0 = Except.ok sampleGridBig
    ∧ Reached Nat (addList sampleGridBig [([0, 0], 5)])
    ∧ (addList sampleGridBig
        [([0, 0], 5)]).compress.compressed_data_.num_data_per_cell.sum = 0
    ∧ (addList sampleGridBig [([0, 0], 5)]).compress.raw_data_.data.length = 1 := by
  refine ⟨rfl, ?_, rfl, rfl⟩
  exact Reached.add sampleGridBig [0, 0] 5 rfl
    (Reached.ctor [65536, 65536] 0 sampleGridBig rfl)

/-- Claim C2 (amended): after every `compress` call on a reachable state
whose total cell count is below `2 ^ 31` (so the `int`-accumulated
`num_cells_` is exact), the compressed buffer satisfies the CSR invariants:
the counts sum to the raw size (which is the length of the compressed data
array) and every start offset is the exclusive prefix sum of the counts,
with `first_data_id_per_cell[0] = 0`. -/
theorem compress_CSR {Data : Type} [Inhabited Data] (g : MultiGrid Data)
    (hreach : Reached Data g) (hbound : g.grid_size_.prod < 2 ^ 31) :
    CSRinv g.compress
    ∧ g.compress.compressed_data_.first_data_id_per_cell.getD 0 0 = 0 := by
  have h := reached_wf (Reached.compress g hreach)
  have hcsr := h.2 (by rw [compress_grid_size g]; exact hbound) (compress_flag g)
  refine ⟨hcsr, ?_⟩
  have hwf := (reached_wf hreach).1
  obtain ⟨-, -, -, w4, w5⟩ := hwf
  have hpos : 0 < g.num_cells_ := by
    rw [w5, numCellsInit_exact w4 hbound]
    exact List.one_le_prod_of_one_le w4
  have h0 : 0 < g.compress.num_cells_ := by
    rw [compress_num_cells g]
    exact hpos
  have := hcsr.2.2 0 h0
  simpa using this

/-- Witness for claim C2: the freshly constructed `2 × 2` grid. -/
theorem compress_CSR_witness :
    CSRinv sampleGrid22.compress
    ∧ sampleGrid22.compress.compressed_data_.first_data_id_per_cell.getD 0 0 = 0 :=
  compress_CSR sampleGrid22 (Reached.ctor [2, 2] 0 sampleGrid22 rfl) (by decide)

theorem addList_cons {Data : Type} (g : MultiGrid Data) (p : CellId × Data)
    (adds : List (CellId × Data)) :
    addList g (p :: adds) = addList (g.add p.1 p.2).1 adds := rfl

theorem add_fst_grid_size {Data : Type} (g : MultiGrid Data) (c : CellId) (d : Data) :
    (g.add c d).1.grid_size_ = g.grid_size_ := by
  unfold MultiGrid.add
  split <;> rfl

theorem add_fst_num_cells {Data : Type} (g : MultiGrid Data) (c : CellId) (d : Data) :
    (g.add c d).1.num_cells_ = g.num_cells_ := by
  unfold MultiGrid.add
  split <;> rfl

theorem add_fst_compressed_data {Data : Type} (g : MultiGrid Data) (c : CellId)
    (d : Data) : (g.add c d).1.compressed_data_ = g.compressed_data_ := by
  unfold MultiGrid.add
  split <;> rfl

theorem add_fst_flag {Data : Type} (g : MultiGrid Data) (c : CellId) (d : Data)
    (h : g.compressed_ = false) : (g.add c d).1.compressed_ = false := by
  unfold MultiGrid.add
  split
  · exact h
  · rfl

theorem addList_grid_size {Data : Type} (adds : List (CellId × Data)) :
    ∀ g : MultiGrid Data, (addList g adds).grid_size_ = g.grid_size_ := by
  induction adds with
  | nil => intro g; rfl
  | cons p adds ih =>
    intro g
    rw [addList_cons, ih, add_fst_grid_size]

theorem addList_num_cells {Data : Type} (adds : List (CellId × Data)) :
    ∀ g : MultiGrid Data, (addList g adds).num_cells_ = g.num_cells_ := by
  induction adds with
  | nil => intro g; rfl
  | cons p adds ih =>
    intro g
    rw [addList_cons, ih, add_fst_num_cells]

theorem addList_compressed_data {Data : Type} (adds : List (CellId × Data)) :
    ∀ g : MultiGrid Data, (addList g adds).compressed_data_ = g.compressed_data_ := by
  induction adds with
  | nil => intro g; rfl
  | cons p adds ih =>
    intro g
    rw [addList_cons, ih, add_fst_compressed_data]

theorem addList_flag {Data : Type} (adds : List (CellId × Data)) :
    ∀ g : MultiGrid Data, g.compressed_ = false →
      (addList g adds).compressed_ = false := by
  induction adds with
  | nil => intro g h; exact h
  | cons p adds ih =>
    intro g h
    rw [addList_cons]
    exact ih _ (add_fst_flag g p.1 p.2 h)

theorem addList_raw_data {Data : Type} (adds : List (CellId × Data)) :
    ∀ g : MultiGrid Data, (∀ p ∈ adds, cellOk g.grid_size_ p.1 = true) →
      (addList g adds).raw_data_.data = g.raw_data_.data ++ adds.map Prod.snd
      ∧ (addList g adds).raw_data_.cell_ids
          = g.raw_data_.cell_ids ++ adds.map Prod.fst := by
  induction adds with
  | nil => intro g _; simp [addList]
  | cons p adds ih =>
    intro g h
    have hok := h p (List.mem_cons_self p adds)
    obtain ⟨i4, i5⟩ := ih (g.add p.1 p.2).1 (fun q hq => by
      rw [add_fst_grid_size]
      exact h q (List.mem_cons_of_mem p hq))
    rw [addList_cons]
    constructor
    · rw [i4, add_ok_eq g p.1 p.2 hok]
      simp
    · rw [i5, add_ok_eq g p.1 p.2 hok]
      simp

theorem segment_eq {Data : Type} (d : List Data) (a n : Nat) (items : List Data)
    (hlen : items.length = n) (_hub : a + n ≤ d.length)
    (hpt : ∀ j, j < n → d[a + j]? = items[j]?) :
    (d.drop a).take n = items := by
  apply List.ext_getElem?
  intro j
  by_cases hj : j < n
  · rw [List.getElem?_take_of_lt hj, List.getElem?_drop, hpt j hj]
  · have h1 : ((d.drop a).take n)[j]? = none := List.getElem?_eq_none (by
      rw [List.length_take, List.length_drop]
      omega)
    have h2 : items[j]? = none := List.getElem?_eq_none (by
      rw [hlen]
      omega)
    rw [h1, h2]

theorem cellEntries_eq_addedAt {Data : Type} (gs : GridSize)
    (adds : List (CellId × Data)) (c : CellId)
    (hpos : ∀ n ∈ gs, 1 ≤ n) (hprod : gs.prod < 2 ^ 64)
    (hadds : ∀ p ∈ adds, ValidCell gs p.1) (hc : ValidCell gs c) :
    cellEntries gs adds (linearize gs c) = addedAt adds c := by
  unfold cellEntries addedAt
  congr 1
  apply List.filter_congr
  intro p hp
  by_cases he : p.1 = c
  · simp [he]
  · have hne : linearize gs p.1 ≠ linearize gs c := fun h => he (by
      rw [← delin_linearize hpos hprod (hadds p hp),
        ← delin_linearize hpos hprod hc, h])
    rw [beq_eq_false_iff_ne.mpr hne, beq_eq_false_iff_ne.mpr he]

theorem zip_raw_addList {Data : Type} (adds : List (CellId × Data)) :
    (adds.map Prod.fst).zip (adds.map Prod.snd) = adds := by
  rw [List.zip_map']
  simp

theorem master_segments {Data : Type} [Inhabited Data]
    (gs : GridSize) (buff : Nat) (g0 : MultiGrid Data)
    (hmk : mkMultiGrid Data gs buff = Except.ok g0)
    (hbound : gs.prod < 2 ^ 31)
    (adds : List (CellId × Data))
    (hadds : ∀ p ∈ adds, ValidCell gs p.1)
    (c : CellId) (hc : ValidCell gs c) :
    (addList g0 adds).compress.enumerateData c
      = Except.ok
        { beginIdx := fstF gs adds (linearize gs c)
          endIdx := fstF gs adds (linearize gs c) + cntF gs adds (linearize gs c) }
    ∧ ((addList g0 adds).compress.compressed_data_.num_data_per_cell).getD
        (linearize gs c) 0 = cntF gs adds (linearize gs c)
    ∧ ((addList g0 adds).compress.compressed_data_.first_data_id_per_cell).getD
        (linearize gs c) 0 = fstF gs adds (linearize gs c)
    ∧ ((addList g0 adds).compress.compressed_data_.data.drop
          (fstF gs adds (linearize gs c))).take (cntF gs adds (linearize gs c))
        = addedAt adds c
    ∧ (addedAt adds c).length = cntF gs adds (linearize gs c) := by
  obtain ⟨m1, m2, m3, m4, m5, m6, _, _, _, m10⟩ := mk_ok_inv hmk
  have hpos : ∀ n ∈ gs, 1 ≤ n := by
    intro n hn
    have hne : n ≠ 0 := fun e => m10 (e ▸ hn)
    omega
  have hnc : g0.num_cells_ = gs.prod := by
    rw [m2, numCellsInit_exact hpos hbound]
  have hok : ∀ p ∈ adds, cellOk g0.grid_size_ p.1 = true := by
    intro p hp
    rw [m1]
    exact validCell_cellOk (hadds p hp)
  obtain ⟨hraw_data, hraw_cells⟩ := addList_raw_data adds g0 hok
  rw [m4] at hraw_data
  rw [m5] at hraw_cells
  simp only [List.nil_append] at hraw_data hraw_cells
  have hgs1 : (addList g0 adds).grid_size_ = gs := by
    rw [addList_grid_size, m1]
  have hnc1 : (addList g0 adds).num_cells_ = gs.prod := by
    rw [addList_num_cells, hnc]
  have hflag1 : (addList g0 adds).compressed_ = false :=
    addList_flag adds g0 m3
  have hcd1 : (addList g0 adds).compressed_data_ = g0.compressed_data_ :=
    addList_compressed_data adds g0
  have hlen1 : (addList g0 adds).raw_data_.cell_ids.length
      = (addList g0 adds).raw_data_.data.length := by
    rw [hraw_data, hraw_cells, List.length_map, List.length_map]
  have hcntlen1 :
      (addList g0 adds).compressed_data_.num_data_per_cell.length
        = (addList g0 adds).num_cells_ := by
    rw [hcd1, m6, List.length_replicate, hnc1]
    exact numCellsInit_exact hpos hbound
  have hall1 : ∀ cid ∈ (addList g0 adds).raw_data_.cell_ids,
      linearize (addList g0 adds).grid_size_ cid < (addList g0 adds).num_cells_ := by
    rw [hraw_cells, hgs1, hnc1]
    intro cid hcid
    obtain ⟨p, hp, hpe⟩ := List.mem_map.mp hcid
    rw [← hpe]
    exact linearize_lt_prod hpos (lt_trans hbound (by norm_num)) (hadds p hp)
  obtain ⟨l1, l2, l3, l4, l5, l6, l7⟩ :=
    compress_spec (addList g0 adds) hflag1 hlen1 hcntlen1 hall1
  have hRzip : (addList g0 adds).raw_data_.cell_ids.zip
      (addList g0 adds).raw_data_.data = adds := by
    rw [hraw_cells, hraw_data, zip_raw_addList]
  rw [hRzip] at l2 l5 l7
  rw [hgs1] at l2 l5 l7
  have h64 : gs.prod < 2 ^ 64 := lt_trans hbound (by norm_num)
  have hlin : linearize gs c < gs.prod := linearize_lt_prod hpos h64 hc
  have hlin1 : linearize gs c < (addList g0 adds).num_cells_ := by
    rw [hnc1]
    exact hlin
  have hentries := cellEntries_eq_addedAt gs adds c hpos h64 hadds hc
  have hadds_lin : ∀ p ∈ adds, linearize gs p.1 < gs.prod :=
    fun p hp => linearize_lt_prod hpos h64 (hadds p hp)
  have hub : fstF gs adds (linearize gs c) + cntF gs adds (linearize gs c)
      ≤ adds.length := by
    calc fstF gs adds (linearize gs c) + cntF gs adds (linearize gs c)
        = fstF gs adds (linearize gs c + 1) := (fstF_succ gs adds _).symm
      _ ≤ fstF gs adds gs.prod := fstF_mono gs adds hlin
      _ = adds.length := fstF_total gs adds gs.prod hadds_lin
  have hdlen : (addList g0 adds).compress.compressed_data_.data.length
      = adds.length := by
    rw [l6, hraw_data, List.length_map]
  have hseg : ((addList g0 adds).compress.compressed_data_.data.drop
      (fstF gs adds (linearize gs c))).take (cntF gs adds (linearize gs c))
      = addedAt adds c := by
    apply segment_eq _ _ _ _ ?hl (by rw [hdlen]; exact hub) ?hpt
    case hl =>
      rw [← hentries]
      exact cntF_length gs adds (linearize gs c)
    case hpt =>
      intro j hj
      rw [l7 (linearize gs c) hlin1 j hj, hentries]
  have henum : (addList g0 adds).compress.enumerateData c
      = Except.ok
        { beginIdx := fstF gs adds (linearize gs c)
          endIdx := fstF gs adds (linearize gs c)
            + cntF gs adds (linearize gs c) } := by
    unfold MultiGrid.enumerateData
    rw [if_neg (by simp [compress_flag])]
    have hok_c : cellOk (addList g0 adds).compress.grid_size_ c = true := by
      rw [compress_grid_size, hgs1]
      exact validCell_cellOk hc
    rw [if_neg (by simp [hok_c])]
    have hgs2 : (addList g0 adds).compress.grid_size_ = gs := by
      rw [compress_grid_size, hgs1]
    rw [hgs2]
    simp only [l5 (linearize gs c) hlin1, l2 (linearize gs c) hlin1]
  refine ⟨henum, l2 (linearize gs c) hlin1, l5 (linearize gs c) hlin1, hseg, ?_⟩
  rw [← hentries]
  exact (cntF_length gs adds (linearize gs c)).symm

/-- Claim C1, as frozen, is false on the code: on the grid `65536 × 65536`
(which constructs with zero-length per-cell arrays, claim C9) a successful
`add((0,0), 5)` followed by `compress` makes `enumerateData((0,0))` return
an empty view, while the item `5` was added at that cell. -/
theorem enumerate_after_compress_cex :
    mkMultiGrid Nat [65536, 65536] 0 = Except.ok sampleGridBig
    ∧ (addList sampleGridBig [([0, 0], 5)]).compress.enumerateData [0, 0]
        = Except.ok { beginIdx := 0, endIdx := 0 }
    ∧ viewOf (addList sampleGridBig [([0, 0], 5)]).compress
        { beginIdx := 0, endIdx := 0 } = []
    ∧ addedAt [([0, 0], 5)] [0, 0] = [5]
    ∧ Multiset.ofList ([] : List Nat) ≠ Multiset.ofList [5] :=
  ⟨rfl, rfl, rfl, rfl, by decide⟩

/-- Claim C1 (amended): after a sequence of successful `add` calls followed
by `compress` on a grid whose total cell count is below `2 ^ 31` (so the
`int`-accumulated `num_cells_` is exact), `enumerateData(c)` returns a view
whose item multiset equals the multiset of items added with cell id `c`
and whose length is the per-cell count at `linearize(c)`. -/
theorem enumerate_after_compress {Data : Type} [Inhabited Data]
    (gs : GridSize) (buff : Nat) (g0 : MultiGrid Data)
    (hmk : mkMultiGrid Data gs buff = Except.ok g0)
    (hbound : gs.prod < 2 ^ 31)
    (adds : List (CellId × Data)) (hadds : ∀ p ∈ adds, ValidCell gs p.1)
    (c : CellId) (hc : ValidCell gs c) :
    ∃ b, (addList g0 adds).compress.enumerateData c = Except.ok b
      ∧ Multiset.ofList (viewOf (addList g0 adds).compress b)
          = Multiset.ofList (addedAt adds c)
      ∧ (viewOf (addList g0 adds).compress b).length
          = ((addList g0 adds).compress.compressed_data_.num_data_per_cell).getD
              (linearize gs c) 0 := by
  obtain ⟨h1, h2, h3, h4, h5⟩ :=
    master_segments gs buff g0 hmk hbound adds hadds c hc
  have hview : viewOf (addList g0 adds).compress
      { beginIdx := fstF gs adds (linearize gs c)
        endIdx := fstF gs adds (linearize gs c) + cntF gs adds (linearize gs c) }
      = addedAt adds c := by
    show ((addList g0 adds).compress.compressed_data_.data.drop
        (fstF gs adds (linearize gs c))).take
        (fstF gs adds (linearize gs c) + cntF gs adds (linearize gs c)
          - fstF gs adds (linearize gs c))
      = addedAt adds c
    rw [Nat.add_sub_cancel_left]
    exact h4
  refine ⟨_, h1, by rw [hview], ?_⟩
  rw [hview, h5]
  exact h2.symm

/-- Witness for claim C1: spec scenario S1 on the `2 × 2` grid, queried at
cell `(0, 0)`. -/
theorem enumerate_after_compress_witness :
    ∃ b, (addList sampleGrid22
        [([0, 0], 10), ([1, 0], 20), ([0, 0], 11), ([1, 1], 30)]).compress.enumerateData
          [0, 0] = Except.ok b
      ∧ Multiset.ofList (viewOf (addList sampleGrid22
            [([0, 0], 10), ([1, 0], 20), ([0, 0], 11), ([1, 1], 30)]).compress b)
          = Multiset.ofList (addedAt
              [([0, 0], 10), ([1, 0], 20), ([0, 0], 11), ([1, 1], 30)] [0, 0])
      ∧ (viewOf (addList sampleGrid22
            [([0, 0], 10), ([1, 0], 20), ([0, 0], 11), ([1, 1], 30)]).compress b).length
          = ((addList sampleGrid22
              [([0, 0], 10), ([1, 0], 20), ([0, 0], 11),
                ([1, 1], 30)]).compress.compressed_data_.num_data_per_cell).getD
              (linearize [2, 2] [0, 0]) 0 :=
  enumerate_after_compress [2, 2] 0 sampleGrid22 rfl (by decide)
    [([0, 0], 10), ([1, 0], 20), ([0, 0], 11), ([1, 1], 30)] (by decide)
    [0, 0] (by decide)

/-- Claim C8, as frozen, is false on the code: on the grid `65536 × 65536`
(claim C9) the cell `(0, 0)` segment of the compressed array after a
successful `add((0,0), 5)` and `compress` is empty, while the insertion
order of that cell's items is `[5]`. -/
theorem compress_stable_cex :
    mkMultiGrid Nat [65536, 65536] 0 = Except.ok sampleGridBig
    ∧ ((addList sampleGridBig [([0, 0], 5)]).compress.compressed_data_.data.drop
        (((addList sampleGridBig
            [([0, 0], 5)]).compress.compressed_data_.first_data_id_per_cell).getD
          (linearize [65536, 65536] [0, 0]) 0)).take
        (((addList sampleGridBig
            [([0, 0], 5)]).compress.compressed_data_.num_data_per_cell).getD
          (linearize [65536, 65536] [0, 0]) 0)
      = ([] : List Nat)
    ∧ addedAt [([0, 0], 5)] [0, 0] = [5] :=
  ⟨rfl, rfl, rfl⟩

/-- Claim C8 (amended): after `compress` on a grid whose total cell count
is below `2 ^ 31`, each cell's contiguous segment of the compressed data
array — the slice of length `count[s]` starting at `start[s]` — lists that
cell's items in their insertion order (the scatter pass is stable). -/
theorem compress_stable {Data : Type} [Inhabited Data]
    (gs : GridSize) (buff : Nat) (g0 : MultiGrid Data)
    (hmk : mkMultiGrid Data gs buff = Except.ok g0)
    (hbound : gs.prod < 2 ^ 31)
    (adds : List (CellId × Data)) (hadds : ∀ p ∈ adds, ValidCell gs p.1)
    (c : CellId) (hc : ValidCell gs c) :
    ((addList g0 adds).compress.compressed_data_.data.drop
        (((addList g0 adds).compress.compressed_data_.first_data_id_per_cell).getD
          (linearize gs c) 0)).take
      (((addList g0 adds).compress.compressed_data_.num_data_per_cell).getD
        (linearize gs c) 0)
      = addedAt adds c := by
  obtain ⟨h1, h2, h3, h4, h5⟩ :=
    master_segments gs buff g0 hmk hbound adds hadds c hc
  rw [h2, h3]
  exact h4

/-- Witness for claim C8: spec scenario S1 on the `2 × 2` grid at cell
`(0, 0)` — the segment lists `10` before `11`, their insertion order. -/
theorem compress_stable_witness :
    ((addList sampleGrid22
        [([0, 0], 10), ([1, 0], 20), ([0, 0], 11), ([1, 1], 30)]).compress.compressed_data_.data.drop
        (((addList sampleGrid22
            [([0, 0], 10), ([1, 0], 20), ([0, 0], 11),
              ([1, 1], 30)]).compress.compressed_data_.first_data_id_per_cell).getD
          (linearize [2, 2] [0, 0]) 0)).take
      (((addList sampleGrid22
          [([0, 0], 10), ([1, 0], 20), ([0, 0], 11),
            ([1, 1], 30)]).compress.compressed_data_.num_data_per_cell).getD
        (linearize [2, 2] [0, 0]) 0)
      = addedAt [([0, 0], 10), ([1, 0], 20), ([0, 0], 11), ([1, 1], 30)] [0, 0] :=
  compress_stable [2, 2] 0 sampleGrid22 rfl (by decide)
    [([0, 0], 10), ([1, 0], 20), ([0, 0], 11), ([1, 1], 30)] (by decide)
    [0, 0] (by decide)

end DiRe
